import Mathlib

/-!
Verification of `bin/publish-extension.py`, the Chrome Web Store publisher
script of the eksi-arti repository.

The script is a sequential CLI program: it resolves credentials from the
environment, discovers the project version from `package.json`, locates the
packaged ZIP artifact, lazily refreshes an OAuth access token, and issues
upload / publish / info HTTP requests against fixed endpoints.

The embedding below is a shallow one: every HTTP interaction is an oracle
value supplied as input (`HttpOutcome`), JSON documents are a small inductive
type, Python exceptions are modelled with `Except PyExc`, and every operation
additionally returns the list of observable events it produced (HTTP request
attempts and the diagnostic messages it prints, identified by their static
prefix).  Python truthiness of values that can appear here (None, decoded
JSON) is modelled explicitly.
-/

/-- Decoded JSON values, as produced by `response.json()` in the script.
Objects keep their fields as an association list; Python's `json.loads`
lets a later duplicate key win, which `jsonLookup` reproduces. -/
inductive Json where
  | null
  | bool (b : Bool)
  | num (n : Int)
  | str (s : String)
  | arr (elems : List Json)
  | obj (fields : List (String × Json))
deriving Repr

/-- Python truthiness of a decoded JSON value (`None`, `False`, `0`, `""`,
`[]`, `{}` are falsy). -/
def Json.truthy : Json → Bool
  | .null => false
  | .bool b => b
  | .num n => n != 0
  | .str s => s != ""
  | .arr elems => !elems.isEmpty
  | .obj fields => !fields.isEmpty

/-- Truthiness of an optional value: Python `None` is falsy. -/
def optTruthy : Option Json → Bool
  | none => false
  | some j => j.truthy

/-- Field lookup in a decoded JSON object; a later duplicate key wins,
as in Python dicts built by `json.loads`. -/
def jsonLookup (fields : List (String × Json)) (k : String) : Option Json :=
  fields.reverse.lookup k

/-- Python exception classes that the script can raise or catch. -/
inductive PyExc where
  | requestException
  | attributeError
  | typeError
deriving DecidableEq, Repr

/-- `value.get(key)` in Python: defined on dicts, raises `AttributeError`
on any other value (lists, strings, numbers have no `.get`). -/
def dictGet (j : Json) (k : String) : Except PyExc (Option Json) :=
  match j with
  | .obj fields => .ok (jsonLookup fields k)
  | _ => .error .attributeError

/-- Python `v == s` where `v` is a decoded JSON value (or `None`) and `s`
a string literal: true exactly when `v` is that string. -/
def pyEqStr (v : Option Json) (s : String) : Bool :=
  match v with
  | some (.str t) => t == s
  | _ => false

/-- Substring test on strings (Python `needle in hay` for strings). -/
def strContainsSubstr (hay needle : String) : Bool :=
  hay.toList.tails.any (fun t => needle.toList.isPrefixOf t)

/-- Python `needle in x` for a string `needle` and a decoded JSON value `x`:
`==`-membership for lists (a string equals only an equal string), substring
test for strings, key test for dicts, `TypeError` otherwise. -/
def pyContains (needle : String) (j : Json) : Except PyExc Bool :=
  match j with
  | .str s => .ok (strContainsSubstr s needle)
  | .arr elems => .ok (elems.any (fun x => pyEqStr (some x) needle))
  | .obj fields => .ok (fields.any (fun p => p.1 == needle))
  | _ => .error .typeError

/-- An HTTP response as seen through the `requests` library: status code,
decoded JSON body (`none` models a body that is not valid JSON, so that
`response.json()` raises), and the raw text used in diagnostics. -/
structure Response where
  status_code : Nat
  jsonBody : Option Json
  text : String

/-- Outcome of one HTTP request attempt: either the transport layer raised
a `requests.exceptions.RequestException`, or a response came back. -/
inductive HttpOutcome where
  | transportError
  | response (r : Response)

/-- Observable events of a run: HTTP request attempts against the four
endpoints (the publish request records its query parameters), and printed
diagnostics identified by the static prefix of the message. -/
inductive Event where
  | tokenReq
  | uploadReq
  | publishReq (params : List (String × String))
  | infoReq
  | printMsg (msg : String)
deriving DecidableEq, Repr

/-- Network oracle for one process run: the outcome each endpoint would
produce if called, plus whether opening/reading the ZIP artifact succeeds. -/
structure NetEnv where
  tokenOutcome : HttpOutcome
  zipReadOk : Bool
  uploadOutcome : HttpOutcome
  publishOutcome : HttpOutcome
  infoOutcome : HttpOutcome

/-- Embedding of `ChromeWebStorePublisher._refresh_access_token`.

State is the current `self.access_token` (a decoded JSON value or `None`).
The POST to the token endpoint is always attempted.  `raise_for_status`
raises `HTTPError` (a `RequestException`, hence caught) for status codes in
[400, 600); a body that is not valid JSON raises `JSONDecodeError` (also a
`RequestException` in the `requests` versions this script targets, hence
caught); but `token_data.get(...)` on a non-dict body raises an
`AttributeError` that the `except RequestException` clause does NOT catch,
so it propagates to the caller.  On the normal path the token is assigned
whatever `token_data.get('access_token')` returned (possibly `None`) and
the function returns its truthiness. -/
def refreshAccessToken (access_token : Option Json) (out : HttpOutcome) :
    List Event × Except PyExc (Option Json × Bool) :=
  let pre := [Event.printMsg "🔑 Refreshing access token...", Event.tokenReq]
  match out with
  | .transportError =>
      (pre ++ [Event.printMsg "❌ Error refreshing token:"], .ok (access_token, false))
  | .response r =>
      if 400 ≤ r.status_code ∧ r.status_code < 600 then
        (pre ++ [Event.printMsg "❌ Error refreshing token:"], .ok (access_token, false))
      else
        match r.jsonBody with
        | none =>
            (pre ++ [Event.printMsg "❌ Error refreshing token:"], .ok (access_token, false))
        | some token_data =>
            match dictGet token_data "access_token" with
            | .error e => (pre, .error e)
            | .ok tok =>
                if optTruthy tok then
                  (pre ++ [Event.printMsg "✅ Access token refreshed successfully"],
                   .ok (tok, true))
                else
                  (pre ++ [Event.printMsg "❌ Failed to get access token from response"],
                   .ok (tok, false))

/-- Embedding of the `try` block of `ChromeWebStorePublisher.upload_extension`
(everything after the token guard).  The whole block is wrapped in
`except Exception`, so it never raises: any exception (file open failure,
transport error, JSON decode failure, `.get` on a non-dict body) becomes a
printed diagnostic and `False`.  The PUT request is attempted only if the
ZIP file could be opened and read. -/
def uploadBody (zipReadOk : Bool) (out : HttpOutcome) : List Event × Bool :=
  let pre := [Event.printMsg "📤 Uploading to Chrome Web Store..."]
  if zipReadOk then
    match out with
    | .transportError =>
        (pre ++ [Event.uploadReq, Event.printMsg "❌ Error uploading extension:"], false)
    | .response r =>
        if r.status_code == 200 then
          match r.jsonBody with
          | none =>
              (pre ++ [Event.uploadReq, Event.printMsg "❌ Error uploading extension:"], false)
          | some result =>
              match dictGet result "uploadState" with
              | .error _ =>
                  (pre ++ [Event.uploadReq, Event.printMsg "❌ Error uploading extension:"],
                   false)
              | .ok st =>
                  if pyEqStr st "SUCCESS" then
                    (pre ++ [Event.uploadReq,
                             Event.printMsg "✅ Extension uploaded successfully"], true)
                  else
                    (pre ++ [Event.uploadReq, Event.printMsg "❌ Upload failed:"], false)
        else
          (pre ++ [Event.uploadReq, Event.printMsg "❌ HTTP Error:"], false)
  else
    (pre ++ [Event.printMsg "❌ Error uploading extension:"], false)

/-- Embedding of `ChromeWebStorePublisher.upload_extension`.

`if not self.access_token and not self._refresh_access_token(): return False`:
with a truthy token the refresh is skipped; otherwise the refresh runs first
and a `False` from it short-circuits the upload.  An exception raised inside
the refresh propagates.  Returns the final `self.access_token` and the
boolean result. -/
def uploadExtension (access_token : Option Json) (env : NetEnv) :
    List Event × Except PyExc (Option Json × Bool) :=
  if optTruthy access_token then
    let (evs, ok) := uploadBody env.zipReadOk env.uploadOutcome
    (evs, .ok (access_token, ok))
  else
    match refreshAccessToken access_token env.tokenOutcome with
    | (evs, .error e) => (evs, .error e)
    | (evs, .ok (tok, true)) =>
        let (evs2, ok) := uploadBody env.zipReadOk env.uploadOutcome
        (evs ++ evs2, .ok (tok, ok))
    | (evs, .ok (tok, false)) => (evs, .ok (tok, false))

/-- Embedding of the query-parameter construction in
`ChromeWebStorePublisher.publish_extension`: the `publishTarget` parameter
is added exactly when the target is `testers`. -/
def publishParams (target : String) : List (String × String) :=
  if target == "testers" then [("publishTarget", "trustedTesters")] else []

/-- Embedding of the `try` block of
`ChromeWebStorePublisher.publish_extension`.  Wrapped in `except Exception`,
so it never raises.  The POST carries `publishParams target` as query
parameters; on a 200 response the script evaluates
`'OK' in result.get('status', [])`, whose `TypeError`/`AttributeError` on
ill-typed bodies is caught and turned into `False`. -/
def publishBody (target : String) (out : HttpOutcome) : List Event × Bool :=
  let pre := [Event.printMsg "🚀 Publishing extension...",
              Event.publishReq (publishParams target)]
  match out with
  | .transportError =>
      (pre ++ [Event.printMsg "❌ Error publishing extension:"], false)
  | .response r =>
      if r.status_code == 200 then
        match r.jsonBody with
        | none =>
            (pre ++ [Event.printMsg "❌ Error publishing extension:"], false)
        | some result =>
            match dictGet result "status" with
            | .error _ =>
                (pre ++ [Event.printMsg "❌ Error publishing extension:"], false)
            | .ok st =>
                match pyContains "OK" (st.getD (Json.arr [])) with
                | .error _ =>
                    (pre ++ [Event.printMsg "❌ Error publishing extension:"], false)
                | .ok true =>
                    (pre ++ [Event.printMsg "✅ Extension published successfully"], true)
                | .ok false =>
                    (pre ++ [Event.printMsg "❌ Publish failed:"], false)
      else
        (pre ++ [Event.printMsg "❌ HTTP Error:"], false)

/-- Embedding of `ChromeWebStorePublisher.publish_extension` (token guard as
in `uploadExtension`, then the request body). -/
def publishExtension (access_token : Option Json) (target : String) (env : NetEnv) :
    List Event × Except PyExc (Option Json × Bool) :=
  if optTruthy access_token then
    let (evs, ok) := publishBody target env.publishOutcome
    (evs, .ok (access_token, ok))
  else
    match refreshAccessToken access_token env.tokenOutcome with
    | (evs, .error e) => (evs, .error e)
    | (evs, .ok (tok, true)) =>
        let (evs2, ok) := publishBody target env.publishOutcome
        (evs ++ evs2, .ok (tok, ok))
    | (evs, .ok (tok, false)) => (evs, .ok (tok, false))

/-- Embedding of the `try` block of
`ChromeWebStorePublisher.get_extension_info`: a 200 response yields the
decoded body, anything else (non-200, transport error, undecodable body)
yields `None` after a diagnostic. -/
def infoBody (out : HttpOutcome) : List Event × Option Json :=
  let pre := [Event.printMsg "ℹ️  Fetching extension information...", Event.infoReq]
  match out with
  | .transportError =>
      (pre ++ [Event.printMsg "❌ Error fetching extension info:"], none)
  | .response r =>
      if r.status_code == 200 then
        match r.jsonBody with
        | none => (pre ++ [Event.printMsg "❌ Error fetching extension info:"], none)
        | some doc => (pre, some doc)
      else
        (pre ++ [Event.printMsg "❌ HTTP Error:"], none)

/-- Embedding of `ChromeWebStorePublisher.get_extension_info` (token guard,
then the GET). -/
def getExtensionInfo (access_token : Option Json) (env : NetEnv) :
    List Event × Except PyExc (Option Json × Option Json) :=
  if optTruthy access_token then
    let (evs, doc) := infoBody env.infoOutcome
    (evs, .ok (access_token, doc))
  else
    match refreshAccessToken access_token env.tokenOutcome with
    | (evs, .error e) => (evs, .error e)
    | (evs, .ok (tok, true)) =>
        let (evs2, doc) := infoBody env.infoOutcome
        (evs ++ evs2, .ok (tok, doc))
    | (evs, .ok (tok, false)) => (evs, .ok (tok, none))

/-- Python truthiness of `os.getenv(...)`: `None` and the empty string are
falsy. -/
def pyEnvTruthy : Option String → Bool
  | none => false
  | some s => s != ""

/-- Embedding of `get_env_vars`.  `getenv` is the process environment after
`load_env_file()` has merged the `.env.cws` file into it.  The script
collects the missing/empty variables; if any, it prints them and calls
`sys.exit(1)` (modelled as `.error 1`), otherwise it returns the four
values, substituting `""` for a falsy value (`value or ""`) — which on the
success path never fires. -/
def get_env_vars (getenv : String → Option String) :
    Except Nat (String × String × String × String) :=
  let required_vars :=
    ["CWS_CLIENT_ID", "CWS_CLIENT_SECRET", "CWS_REFRESH_TOKEN", "CWS_EXTENSION_ID"]
  let missing_vars := required_vars.filter (fun v => !pyEnvTruthy (getenv v))
  if missing_vars.isEmpty then
    .ok ((getenv "CWS_CLIENT_ID").getD "", (getenv "CWS_CLIENT_SECRET").getD "",
         (getenv "CWS_REFRESH_TOKEN").getD "", (getenv "CWS_EXTENSION_ID").getD "")
  else
    .error 1

/-- Filesystem oracle for one run. -/
structure FsEnv where
  /-- whether `project_root/package.json` exists -/
  packageJsonExists : Bool
  /-- decoded content of `package.json`; `none` models an exception while
  opening or JSON-decoding it -/
  packageJsonRead : Option Json
  /-- whether the path supplied via `--zip` exists -/
  zipArgExists : Bool
  /-- whether `builds/eksi-arti-v{version}.zip` exists -/
  builtZipExists : Bool

/-- Embedding of `get_project_info` (the `project_root` half of its return
value is pure path arithmetic and is not modelled).  A missing
`package.json` or any exception while reading it exits with code 1;
otherwise the version is `pkg_data.get('version', '1.0.0')`, where `.get`
on a non-dict document raises inside the `try` and also exits with 1. -/
def get_project_info (fs : FsEnv) : Except Nat Json :=
  if fs.packageJsonExists then
    match fs.packageJsonRead with
    | none => .error 1
    | some pkg_data =>
        match dictGet pkg_data "version" with
        | .error _ => .error 1
        | .ok v => .ok (v.getD (Json.str "1.0.0"))
  else
    .error 1

/-- Embedding of `find_extension_zip`: exit 1 unless the deterministically
named ZIP exists under `builds/`. -/
def find_extension_zip (builtZipExists : Bool) : Except Nat Unit :=
  if builtZipExists then .ok () else .error 1

/-- The positional CLI action. -/
inductive CliAction where
  | upload
  | publish
  | testers
  | info
  | setup
deriving DecidableEq, Repr

/-- The upload-then-publish sequence shared by the `publish` and `testers`
actions: `publisher.upload_extension(zip) and publisher.publish_extension(t)`.
Python `and` short-circuits, so the publish request is attempted only when
the upload returned `True`; an uncaught exception from either operation
makes the interpreter exit with code 1. -/
def mainPublish (target : String) (env : NetEnv) : List Event × Nat :=
  match uploadExtension none env with
  | (evs, .error _) => (evs, 1)
  | (evs, .ok (tok, true)) =>
      match publishExtension tok target env with
      | (evs2, .error _) => (evs ++ evs2, 1)
      | (evs2, .ok (_, true)) => (evs ++ evs2, 0)
      | (evs2, .ok (_, false)) => (evs ++ evs2, 1)
  | (evs, .ok (_, false)) => (evs, 1)

/-- The `info` arm of `main`: `get_extension_info` is called on a publisher
whose `access_token` starts as `None`.  A truthy result document has its
`title` / `status` / `version` fields printed via `.get`, which raises on a
non-dict document and then crashes the interpreter (exit 1).  A `None`
result (failure) merely skips the prints — `main` does NOT call
`sys.exit(1)` in this arm, so the process exits 0. -/
def infoAction (env : NetEnv) : List Event × Nat :=
  match getExtensionInfo none env with
  | (evs, .error _) => (evs, 1)
  | (evs, .ok (_, doc)) =>
      if optTruthy doc then
        match doc with
        | some (Json.obj _) => (evs, 0)
        | _ => (evs, 1)
      else
        (evs, 0)

/-- The `upload` arm of `main`: exit 0 on `True`, `sys.exit(1)` on `False`,
interpreter exit 1 on an uncaught exception. -/
def uploadAction (env : NetEnv) : List Event × Nat :=
  match uploadExtension none env with
  | (evs, .error _) => (evs, 1)
  | (evs, .ok (_, true)) => (evs, 0)
  | (evs, .ok (_, false)) => (evs, 1)

/-- Dispatch on the CLI action (the `if args.action == ...` chain at the end
of `main`); the publisher is always constructed with `access_token = None`. -/
def runAction : CliAction → NetEnv → List Event × Nat
  | .info, env => infoAction env
  | .upload, env => uploadAction env
  | .publish, env => mainPublish "default" env
  | .testers, env => mainPublish "testers" env
  | .setup, _ => ([], 0)

/-- ZIP path resolution in `main`: the source tests `if args.zip:`, so only
a truthy (present and non-empty) `--zip` argument takes the explicit-path
branch, where it is checked for existence (bypassing `find_extension_zip`);
a missing or empty `--zip` falls back to the deterministically named ZIP
under `builds/`. -/
def zipResolve (zipArg : Option String) (fs : FsEnv) : Except Nat Unit :=
  if pyEnvTruthy zipArg then
    if fs.zipArgExists then .ok () else .error 1
  else
    find_extension_zip fs.builtZipExists

example : zipResolve (some "") ⟨true, some (Json.obj []), true, false⟩ = .error 1 := rfl
example : zipResolve (some "") ⟨true, some (Json.obj []), true, true⟩ = .ok () := rfl

/-- Embedding of `main` after argument parsing, as a function of the action,
the optional `--zip` argument, the environment, the filesystem oracle and
the network oracle; returns the event trace and the process exit code.

The `setup` action runs the interactive wizard and returns normally (no
store call, exit 0).  Every other action resolves credentials
(`get_env_vars`), reads `package.json` (`get_project_info`), resolves the
ZIP path, and only then dispatches to the network-facing action.  Purely
informational prints of `main` itself are not modelled. -/
def mainRun (action : CliAction) (zipArg : Option String)
    (getenv : String → Option String) (fs : FsEnv) (env : NetEnv) :
    List Event × Nat :=
  match action with
  | .setup => ([], 0)
  | _ =>
    match get_env_vars getenv with
    | .error c => ([], c)
    | .ok _ =>
      match get_project_info fs with
      | .error c => ([], c)
      | .ok _version =>
        match zipResolve zipArg fs with
        | .error c => ([], c)
        | .ok _ => runAction action env

/-! ### Trace helpers and basic lemmas -/

/-- Events that are HTTP request attempts (as opposed to prints). -/
def isRequest : Event → Bool
  | .tokenReq => true
  | .uploadReq => true
  | .publishReq _ => true
  | .infoReq => true
  | .printMsg _ => false

/-- The request attempts of a trace, in order. -/
def requests (evs : List Event) : List Event :=
  evs.filter isRequest

theorem refresh_requests (st : Option Json) (out : HttpOutcome) :
    requests (refreshAccessToken st out).1 = [Event.tokenReq] := by
  unfold refreshAccessToken requests
  cases out with
  | transportError => simp [isRequest]
  | response r =>
    by_cases h : 400 ≤ r.status_code ∧ r.status_code < 600
    · simp [h, isRequest]
    · cases hb : r.jsonBody with
      | none => simp [h, hb, isRequest]
      | some td =>
        cases hg : dictGet td "access_token" with
        | error e => simp [h, hb, hg, isRequest]
        | ok tok => by_cases ht : optTruthy tok <;> simp [h, hb, hg, ht, isRequest]

theorem uploadBody_requests (z : Bool) (out : HttpOutcome) :
    requests (uploadBody z out).1 = if z then [Event.uploadReq] else [] := by
  unfold uploadBody requests
  cases z with
  | false => simp [isRequest]
  | true =>
    cases out with
    | transportError => simp [isRequest]
    | response r =>
      by_cases h : r.status_code == 200
      · cases hb : r.jsonBody with
        | none => simp [h, hb, isRequest]
        | some result =>
          cases hg : dictGet result "uploadState" with
          | error e => simp [h, hb, hg, isRequest]
          | ok st => by_cases hs : pyEqStr st "SUCCESS" <;> simp [h, hb, hg, hs, isRequest]
      · simp [h, isRequest]

theorem publishBody_requests (target : String) (out : HttpOutcome) :
    requests (publishBody target out).1 = [Event.publishReq (publishParams target)] := by
  unfold publishBody requests
  cases out with
  | transportError => simp [isRequest]
  | response r =>
    by_cases h : r.status_code == 200
    · cases hb : r.jsonBody with
      | none => simp [h, hb, isRequest]
      | some result =>
        cases hg : dictGet result "status" with
        | error e => simp [h, hb, hg, isRequest]
        | ok st =>
          cases hc : pyContains "OK" (st.getD (Json.arr [])) with
          | error e => simp [h, hb, hg, hc, isRequest]
          | ok b => cases b <;> simp [h, hb, hg, hc, isRequest]
    · simp [h, isRequest]

theorem infoBody_requests (out : HttpOutcome) :
    requests (infoBody out).1 = [Event.infoReq] := by
  unfold infoBody requests
  cases out with
  | transportError => simp [isRequest]
  | response r =>
    by_cases h : r.status_code == 200
    · cases hb : r.jsonBody with
      | none => simp [h, hb, isRequest]
      | some doc => simp [h, hb, isRequest]
    · simp [h, isRequest]

/-- A successful refresh leaves a truthy access token behind. -/
theorem refresh_true_truthy (st : Option Json) (out : HttpOutcome)
    (tok : Option Json)
    (h : (refreshAccessToken st out).2 = .ok (tok, true)) :
    optTruthy tok = true := by
  unfold refreshAccessToken at h
  cases out with
  | transportError => simp at h
  | response r =>
    by_cases hc : 400 ≤ r.status_code ∧ r.status_code < 600
    · simp [hc] at h
    · cases hb : r.jsonBody with
      | none => simp [hc, hb] at h
      | some td =>
        cases hg : dictGet td "access_token" with
        | error e => simp [hc, hb, hg] at h
        | ok t =>
          by_cases ht : optTruthy t
          · simp [hc, hb, hg, ht] at h
            rw [← h]; exact ht
          · simp [hc, hb, hg, ht] at h

/-- A successful upload leaves a truthy access token behind. -/
theorem upload_true_truthy (st : Option Json) (env : NetEnv) (tok : Option Json)
    (evs : List Event)
    (h : uploadExtension st env = (evs, .ok (tok, true))) :
    optTruthy tok = true := by
  unfold uploadExtension at h
  by_cases ht : optTruthy st
  · rw [if_pos ht] at h
    rcases hb : uploadBody env.zipReadOk env.uploadOutcome with ⟨bevs, bok⟩
    rw [hb] at h
    simp at h
    rw [← h.2.1]; exact ht
  · rw [if_neg ht] at h
    rcases hr : refreshAccessToken st env.tokenOutcome with ⟨revs, res⟩
    rw [hr] at h
    cases res with
    | error e => simp at h
    | ok p =>
      rcases p with ⟨t, b⟩
      cases b with
      | false => simp at h
      | true =>
        rcases hb : uploadBody env.zipReadOk env.uploadOutcome with ⟨bevs, bok⟩
        rw [hb] at h
        simp at h
        have htt := refresh_true_truthy st env.tokenOutcome t (by rw [hr])
        rw [← h.2.1]; exact htt

theorem requests_append (a b : List Event) :
    requests (a ++ b) = requests a ++ requests b := by
  simp [requests]

theorem upload_requests_truthy (st : Option Json) (env : NetEnv)
    (ht : optTruthy st = true) :
    requests (uploadExtension st env).1
      = if env.zipReadOk then [Event.uploadReq] else [] := by
  unfold uploadExtension
  rw [if_pos ht]
  rcases hb : uploadBody env.zipReadOk env.uploadOutcome with ⟨bevs, bok⟩
  have hbr := uploadBody_requests env.zipReadOk env.uploadOutcome
  rw [hb] at hbr
  exact hbr

theorem upload_requests_refresh (st : Option Json) (env : NetEnv)
    (ht : optTruthy st = false) :
    ∃ rest, requests (uploadExtension st env).1 = Event.tokenReq :: rest ∧
      (rest = [] ∨ rest = if env.zipReadOk then [Event.uploadReq] else []) := by
  unfold uploadExtension
  rw [if_neg (by simp [ht])]
  rcases hr : refreshAccessToken st env.tokenOutcome with ⟨revs, res⟩
  have hrq := refresh_requests st env.tokenOutcome
  rw [hr] at hrq
  cases res with
  | error e => exact ⟨[], hrq, Or.inl rfl⟩
  | ok p =>
    rcases p with ⟨t, b⟩
    cases b with
    | false => exact ⟨[], hrq, Or.inl rfl⟩
    | true =>
      rcases hb : uploadBody env.zipReadOk env.uploadOutcome with ⟨bevs, bok⟩
      have hbr := uploadBody_requests env.zipReadOk env.uploadOutcome
      rw [hb] at hbr
      refine ⟨requests bevs, ?_, Or.inr hbr⟩
      rw [requests_append, hrq]
      rfl

theorem publish_requests_truthy (st : Option Json) (target : String) (env : NetEnv)
    (ht : optTruthy st = true) :
    requests (publishExtension st target env).1
      = [Event.publishReq (publishParams target)] := by
  unfold publishExtension
  rw [if_pos ht]
  rcases hb : publishBody target env.publishOutcome with ⟨bevs, bok⟩
  have hbr := publishBody_requests target env.publishOutcome
  rw [hb] at hbr
  exact hbr

theorem publish_requests_refresh (st : Option Json) (target : String) (env : NetEnv)
    (ht : optTruthy st = false) :
    ∃ rest, requests (publishExtension st target env).1 = Event.tokenReq :: rest ∧
      (rest = [] ∨ rest = [Event.publishReq (publishParams target)]) := by
  unfold publishExtension
  rw [if_neg (by simp [ht])]
  rcases hr : refreshAccessToken st env.tokenOutcome with ⟨revs, res⟩
  have hrq := refresh_requests st env.tokenOutcome
  rw [hr] at hrq
  cases res with
  | error e => exact ⟨[], hrq, Or.inl rfl⟩
  | ok p =>
    rcases p with ⟨t, b⟩
    cases b with
    | false => exact ⟨[], hrq, Or.inl rfl⟩
    | true =>
      rcases hb : publishBody target env.publishOutcome with ⟨bevs, bok⟩
      have hbr := publishBody_requests target env.publishOutcome
      rw [hb] at hbr
      refine ⟨requests bevs, ?_, Or.inr hbr⟩
      rw [requests_append, hrq]
      rfl

theorem info_requests_truthy (st : Option Json) (env : NetEnv)
    (ht : optTruthy st = true) :
    requests (getExtensionInfo st env).1 = [Event.infoReq] := by
  unfold getExtensionInfo
  rw [if_pos ht]
  rcases hb : infoBody env.infoOutcome with ⟨bevs, doc⟩
  have hbr := infoBody_requests env.infoOutcome
  rw [hb] at hbr
  exact hbr

theorem info_requests_refresh (st : Option Json) (env : NetEnv)
    (ht : optTruthy st = false) :
    ∃ rest, requests (getExtensionInfo st env).1 = Event.tokenReq :: rest ∧
      (rest = [] ∨ rest = [Event.infoReq]) := by
  unfold getExtensionInfo
  rw [if_neg (by simp [ht])]
  rcases hr : refreshAccessToken st env.tokenOutcome with ⟨revs, res⟩
  have hrq := refresh_requests st env.tokenOutcome
  rw [hr] at hrq
  cases res with
  | error e => exact ⟨[], hrq, Or.inl rfl⟩
  | ok p =>
    rcases p with ⟨t, b⟩
    cases b with
    | false => exact ⟨[], hrq, Or.inl rfl⟩
    | true =>
      rcases hb : infoBody env.infoOutcome with ⟨bevs, doc⟩
      have hbr := infoBody_requests env.infoOutcome
      rw [hb] at hbr
      refine ⟨requests bevs, ?_, Or.inr hbr⟩
      rw [requests_append, hrq]
      rfl

/-- A successful upload that started without a truthy token has attempted
exactly the token request and then the upload request. -/
theorem upload_true_requests (st : Option Json) (env : NetEnv)
    (tok : Option Json) (evs : List Event) (ht : optTruthy st = false)
    (h : uploadExtension st env = (evs, .ok (tok, true))) :
    requests evs = [Event.tokenReq, Event.uploadReq] := by
  unfold uploadExtension at h
  rw [if_neg (by simp [ht])] at h
  rcases hr : refreshAccessToken st env.tokenOutcome with ⟨revs, res⟩
  rw [hr] at h
  have hrq := refresh_requests st env.tokenOutcome
  rw [hr] at hrq
  cases res with
  | error e => simp at h
  | ok p =>
    rcases p with ⟨t, b⟩
    cases b with
    | false => simp at h
    | true =>
      rcases hb : uploadBody env.zipReadOk env.uploadOutcome with ⟨bevs, bok⟩
      rw [hb] at h
      simp at h
      cases hz : env.zipReadOk with
      | false =>
        rw [hz] at hb
        unfold uploadBody at hb
        simp at hb
        rcases h with ⟨h1, h2, h3⟩
        rw [hb.2] at h3
        simp at h3
      | true =>
        have hbr := uploadBody_requests env.zipReadOk env.uploadOutcome
        rw [hb, hz] at hbr
        rw [← h.1, requests_append, hrq, hbr]
        rfl

/-- The upload-then-publish driver when the upload succeeded: exactly one
token request, one upload request and one publish request carrying the
query parameters of the requested target, in this order. -/
theorem mainPublish_requests_upload_true (target : String) (env : NetEnv)
    (tok : Option Json) (uevs : List Event)
    (hu : uploadExtension none env = (uevs, .ok (tok, true))) :
    requests (mainPublish target env).1
      = [Event.tokenReq, Event.uploadReq, Event.publishReq (publishParams target)] := by
  have hue := upload_true_requests none env tok uevs rfl hu
  have htt := upload_true_truthy none env tok uevs hu
  rcases hp : publishExtension tok target env with ⟨pevs, pres⟩
  have hpr : requests pevs = [Event.publishReq (publishParams target)] := by
    have h0 := publish_requests_truthy tok target env htt
    rw [hp] at h0
    simpa using h0
  unfold mainPublish
  rw [hu]
  dsimp only
  cases pres with
  | error e => rw [hp]; dsimp only; rw [requests_append, hue, hpr]; rfl
  | ok q =>
    rcases q with ⟨t2, b2⟩
    cases b2 with
    | false => rw [hp]; dsimp only; rw [requests_append, hue, hpr]; rfl
    | true => rw [hp]; dsimp only; rw [requests_append, hue, hpr]; rfl

/-- The upload-then-publish driver when the upload failed (returned `False`):
the run exits with code 1 and its trace is the upload trace alone. -/
theorem mainPublish_upload_false (target : String) (env : NetEnv)
    (tok : Option Json) (uevs : List Event)
    (hu : uploadExtension none env = (uevs, .ok (tok, false))) :
    mainPublish target env = (uevs, 1) := by
  unfold mainPublish
  rw [hu]

/-- The upload-then-publish driver when the upload raised: the interpreter
exits with code 1 and the trace is the upload trace alone. -/
theorem mainPublish_upload_error (target : String) (env : NetEnv)
    (e : PyExc) (uevs : List Event)
    (hu : uploadExtension none env = (uevs, .error e)) :
    mainPublish target env = (uevs, 1) := by
  unfold mainPublish
  rw [hu]

/-- Request skeleton of the upload-then-publish driver. -/
theorem mainPublish_requests (target : String) (env : NetEnv) :
    ∃ rest, requests (mainPublish target env).1 = Event.tokenReq :: rest ∧
      (rest = [] ∨ rest = [Event.uploadReq] ∨
       rest = [Event.uploadReq, Event.publishReq (publishParams target)]) := by
  rcases hu : uploadExtension none env with ⟨uevs, ures⟩
  have hur := upload_requests_refresh none env rfl
  rw [hu] at hur
  rcases hur with ⟨rest, hrest, hro⟩
  cases ures with
  | error e =>
    rw [mainPublish_upload_error target env e uevs hu]
    refine ⟨rest, hrest, ?_⟩
    rcases hro with h | h
    · exact Or.inl h
    · cases hz : env.zipReadOk with
      | false => rw [hz] at h; exact Or.inl h
      | true => rw [hz] at h; exact Or.inr (Or.inl h)
  | ok p =>
    rcases p with ⟨t, b⟩
    cases b with
    | false =>
      rw [mainPublish_upload_false target env t uevs hu]
      refine ⟨rest, hrest, ?_⟩
      rcases hro with h | h
      · exact Or.inl h
      · cases hz : env.zipReadOk with
        | false => rw [hz] at h; exact Or.inl h
        | true => rw [hz] at h; exact Or.inr (Or.inl h)
    | true =>
      rw [mainPublish_requests_upload_true target env t uevs hu]
      exact ⟨[Event.uploadReq, Event.publishReq (publishParams target)], rfl,
        Or.inr (Or.inr rfl)⟩

theorem infoAction_fst (env : NetEnv) :
    (infoAction env).1 = (getExtensionInfo none env).1 := by
  unfold infoAction
  rcases hi : getExtensionInfo none env with ⟨evs, res⟩
  cases res with
  | error e => rfl
  | ok q =>
    rcases q with ⟨t, doc⟩
    dsimp only
    by_cases hd : optTruthy doc = true
    · rw [if_pos hd]
      cases doc with
      | none => rfl
      | some j => cases j <;> rfl
    · rw [if_neg hd]

theorem uploadAction_fst (env : NetEnv) :
    (uploadAction env).1 = (uploadExtension none env).1 := by
  unfold uploadAction
  rcases hu : uploadExtension none env with ⟨evs, res⟩
  cases res with
  | error e => rfl
  | ok q =>
    rcases q with ⟨t, b⟩
    cases b <;> rfl

/-- Request skeleton of the network-facing phase of `main`: whatever the
oracles answer, the request attempts are one of five patterns, and each
nonempty pattern starts with the token request. -/
theorem runAction_requests (action : CliAction) (env : NetEnv) :
    requests (runAction action env).1 = [] ∨
    ∃ rest, requests (runAction action env).1 = Event.tokenReq :: rest ∧
      (rest = [] ∨ rest = [Event.uploadReq] ∨ rest = [Event.infoReq] ∨
       ∃ ps, rest = [Event.uploadReq, Event.publishReq ps]) := by
  cases action with
  | setup => left; rfl
  | info =>
    right
    have hf : (runAction CliAction.info env).1 = (getExtensionInfo none env).1 :=
      infoAction_fst env
    rw [hf]
    rcases info_requests_refresh none env rfl with ⟨rest, hr, hd⟩
    refine ⟨rest, hr, ?_⟩
    rcases hd with h | h
    · exact Or.inl h
    · exact Or.inr (Or.inr (Or.inl h))
  | upload =>
    right
    have hf : (runAction CliAction.upload env).1 = (uploadExtension none env).1 :=
      uploadAction_fst env
    rw [hf]
    rcases upload_requests_refresh none env rfl with ⟨rest, hr, hd⟩
    refine ⟨rest, hr, ?_⟩
    rcases hd with h | h
    · exact Or.inl h
    · cases hz : env.zipReadOk with
      | false => rw [hz] at h; exact Or.inl h
      | true => rw [hz] at h; exact Or.inr (Or.inl h)
  | publish =>
    right
    rcases mainPublish_requests "default" env with ⟨rest, hr, hd⟩
    refine ⟨rest, hr, ?_⟩
    rcases hd with h | h | h
    · exact Or.inl h
    · exact Or.inr (Or.inl h)
    · exact Or.inr (Or.inr (Or.inr ⟨publishParams "default", h⟩))
  | testers =>
    right
    rcases mainPublish_requests "testers" env with ⟨rest, hr, hd⟩
    refine ⟨rest, hr, ?_⟩
    rcases hd with h | h | h
    · exact Or.inl h
    · exact Or.inr (Or.inl h)
    · exact Or.inr (Or.inr (Or.inr ⟨publishParams "testers", h⟩))

/-- `main` either halts before the network phase with an empty trace, or its
trace is exactly the trace of the dispatched action. -/
theorem mainRun_fst_cases (action : CliAction) (zipArg : Option String)
    (getenv : String → Option String) (fs : FsEnv) (env : NetEnv) :
    (mainRun action zipArg getenv fs env).1 = [] ∨
    (mainRun action zipArg getenv fs env).1 = (runAction action env).1 := by
  cases action with
  | setup => left; rfl
  | info =>
    unfold mainRun
    dsimp only
    rcases he : get_env_vars getenv with c | creds
    · left; rfl
    · dsimp only
      rcases hpi : get_project_info fs with c | v
      · left; rfl
      · dsimp only
        rcases hz : zipResolve zipArg fs with c | u
        · left; rfl
        · right; rfl
  | upload =>
    unfold mainRun
    dsimp only
    rcases he : get_env_vars getenv with c | creds
    · left; rfl
    · dsimp only
      rcases hpi : get_project_info fs with c | v
      · left; rfl
      · dsimp only
        rcases hz : zipResolve zipArg fs with c | u
        · left; rfl
        · right; rfl
  | publish =>
    unfold mainRun
    dsimp only
    rcases he : get_env_vars getenv with c | creds
    · left; rfl
    · dsimp only
      rcases hpi : get_project_info fs with c | v
      · left; rfl
      · dsimp only
        rcases hz : zipResolve zipArg fs with c | u
        · left; rfl
        · right; rfl
  | testers =>
    unfold mainRun
    dsimp only
    rcases he : get_env_vars getenv with c | creds
    · left; rfl
    · dsimp only
      rcases hpi : get_project_info fs with c | v
      · left; rfl
      · dsimp only
        rcases hz : zipResolve zipArg fs with c | u
        · left; rfl
        · right; rfl

/-- Request skeleton of a full `main` run. -/
theorem mainRun_requests (action : CliAction) (zipArg : Option String)
    (getenv : String → Option String) (fs : FsEnv) (env : NetEnv) :
    requests (mainRun action zipArg getenv fs env).1 = [] ∨
    ∃ rest, requests (mainRun action zipArg getenv fs env).1 = Event.tokenReq :: rest ∧
      (rest = [] ∨ rest = [Event.uploadReq] ∨ rest = [Event.infoReq] ∨
       ∃ ps, rest = [Event.uploadReq, Event.publishReq ps]) := by
  rcases mainRun_fst_cases action zipArg getenv fs env with h | h
  · left; rw [h]; rfl
  · rw [h]; exact runAction_requests action env

theorem pyEqStr_iff (v : Option Json) (s : String) :
    pyEqStr v s = true ↔ v = some (Json.str s) := by
  unfold pyEqStr
  cases v with
  | none => simp
  | some j => cases j <;> simp

/-- With a truthy token already in hand, `upload_extension` is the body of
its `try` block, and the token is left unchanged. -/
theorem upload_truthy_eq (st : Option Json) (env : NetEnv)
    (ht : optTruthy st = true) :
    uploadExtension st env
      = ((uploadBody env.zipReadOk env.uploadOutcome).1,
         .ok (st, (uploadBody env.zipReadOk env.uploadOutcome).2)) := by
  unfold uploadExtension
  rw [if_pos ht]

/-- With a truthy token already in hand, `publish_extension` is the body of
its `try` block, and the token is left unchanged. -/
theorem publish_truthy_eq (st : Option Json) (target : String) (env : NetEnv)
    (ht : optTruthy st = true) :
    publishExtension st target env
      = ((publishBody target env.publishOutcome).1,
         .ok (st, (publishBody target env.publishOutcome).2)) := by
  unfold publishExtension
  rw [if_pos ht]

/-- With a truthy token already in hand, `get_extension_info` is the body of
its `try` block, and the token is left unchanged. -/
theorem info_truthy_eq (st : Option Json) (env : NetEnv)
    (ht : optTruthy st = true) :
    getExtensionInfo st env
      = ((infoBody env.infoOutcome).1,
         .ok (st, (infoBody env.infoOutcome).2)) := by
  unfold getExtensionInfo
  rw [if_pos ht]

example : (uploadExtension (some (Json.str "tok"))
    ⟨.transportError, true,
     .response ⟨200, some (Json.obj [("uploadState", Json.str "SUCCESS")]), ""⟩,
     .transportError, .transportError⟩).2
    = .ok (some (Json.str "tok"), true) := rfl

example : optTruthy (some (Json.str "")) = false := rfl
example : jsonLookup [("a", Json.num 1), ("a", Json.num 2)] "a" = some (Json.num 2) := rfl
example : pyContains "OK" (Json.arr [Json.str "OK"]) = .ok true := rfl
example : pyContains "OK" (Json.str "NOTOK") = .ok true := rfl
example : pyContains "OK" (Json.num 3) = .error .typeError := rfl

/-! ### Claims -/

/-- C1: For every upload response, `upload_extension` returns success if and
only if the HTTP status is 200 and the JSON body's `uploadState` field
equals `"SUCCESS"`; for any other `uploadState` value it returns failure
after printing the `itemError` diagnostic (`"❌ Upload failed: ..."`). -/
theorem upload_success_iff (st : Option Json) (env : NetEnv) (r : Response)
    (ht : optTruthy st = true) (hz : env.zipReadOk = true)
    (hout : env.uploadOutcome = .response r) :
    ((uploadExtension st env).2 = .ok (st, true) ↔
      r.status_code = 200 ∧ ∃ body, r.jsonBody = some body ∧
        dictGet body "uploadState" = .ok (some (Json.str "SUCCESS"))) ∧
    (∀ body stv, r.status_code = 200 → r.jsonBody = some body →
      dictGet body "uploadState" = .ok stv → stv ≠ some (Json.str "SUCCESS") →
      (uploadExtension st env).2 = .ok (st, false) ∧
      Event.printMsg "❌ Upload failed:" ∈ (uploadExtension st env).1) := by
  rw [upload_truthy_eq st env ht, hz, hout]
  by_cases h200 : r.status_code = 200
  · have h200b : (r.status_code == 200) = true := by simp [h200]
    cases hbody : r.jsonBody with
    | none =>
      have hbval : uploadBody true (.response r)
          = ([Event.printMsg "📤 Uploading to Chrome Web Store...", Event.uploadReq,
              Event.printMsg "❌ Error uploading extension:"], false) := by
        simp [uploadBody, h200b, hbody]
      rw [hbval]
      constructor
      · simp
      · intro body2 stv2 _ hb2 _ _
        cases hb2
    | some body =>
      cases hget : dictGet body "uploadState" with
      | error e =>
        have hbval : uploadBody true (.response r)
            = ([Event.printMsg "📤 Uploading to Chrome Web Store...", Event.uploadReq,
                Event.printMsg "❌ Error uploading extension:"], false) := by
          simp [uploadBody, h200b, hbody, hget]
        rw [hbval]
        constructor
        · simp [hget, h200]
        · intro body2 stv2 _ hb2 hg2 _
          cases hb2
          rw [hget] at hg2
          cases hg2
      | ok stv =>
        by_cases hS : pyEqStr stv "SUCCESS" = true
        · have hstv : stv = some (Json.str "SUCCESS") := (pyEqStr_iff stv "SUCCESS").mp hS
          subst hstv
          have hbval : uploadBody true (.response r)
              = ([Event.printMsg "📤 Uploading to Chrome Web Store...", Event.uploadReq,
                  Event.printMsg "✅ Extension uploaded successfully"], true) := by
            simp [uploadBody, h200b, hbody, hget, pyEqStr]
          rw [hbval]
          constructor
          · simp [hget, h200]
          · intro body2 stv2 _ hb2 hg2 hne
            cases hb2
            rw [hget] at hg2
            injection hg2 with hg3
            exact absurd hg3.symm hne
        · have hSf : pyEqStr stv "SUCCESS" = false := by
            cases hv : pyEqStr stv "SUCCESS"
            · rfl
            · exact absurd hv hS
          have hbval : uploadBody true (.response r)
              = ([Event.printMsg "📤 Uploading to Chrome Web Store...", Event.uploadReq,
                  Event.printMsg "❌ Upload failed:"], false) := by
            simp [uploadBody, h200b, hbody, hget, hSf]
          rw [hbval]
          constructor
          · constructor
            · intro h; simp at h
            · rintro ⟨_, body2, hb2, hg2⟩
              cases hb2
              rw [hget] at hg2
              injection hg2 with hg3
              rw [hg3] at hSf
              simp [pyEqStr] at hSf
          · intro body2 stv2 _ hb2 hg2 hne
            refine ⟨rfl, ?_⟩
            simp
  · have h200b : (r.status_code == 200) = false := by simp [h200]
    have hbval : uploadBody true (.response r)
        = ([Event.printMsg "📤 Uploading to Chrome Web Store...", Event.uploadReq,
            Event.printMsg "❌ HTTP Error:"], false) := by
      simp [uploadBody, h200b]
    rw [hbval]
    constructor
    · simp [h200]
    · intro body2 stv2 h200x _ _ _
      exact absurd h200x h200

/-- Witness for C1 at a concrete successful input. -/
theorem upload_success_iff_witness :
    (uploadExtension (some (Json.str "t"))
      ⟨HttpOutcome.transportError, true,
       HttpOutcome.response ⟨200, some (Json.obj [("uploadState", Json.str "SUCCESS")]), ""⟩,
       HttpOutcome.transportError, HttpOutcome.transportError⟩).2
      = .ok (some (Json.str "t"), true) :=
  (upload_success_iff (some (Json.str "t")) _ _ rfl rfl rfl).1.mpr
    ⟨rfl, Json.obj [("uploadState", Json.str "SUCCESS")], rfl, rfl⟩

/-- C2: For every publish response with HTTP status 200 whose body is a JSON
object whose `status` field is a list (or is absent, defaulting to the empty
list), `publish_extension` returns success if and only if that list contains
the string `"OK"`. -/
theorem publish_ok_iff (st : Option Json) (target : String) (env : NetEnv)
    (r : Response) (fields : List (String × Json)) (xs : List Json)
    (ht : optTruthy st = true) (hout : env.publishOutcome = .response r)
    (h200 : r.status_code = 200) (hbody : r.jsonBody = some (Json.obj fields))
    (hstatus : (jsonLookup fields "status").getD (Json.arr []) = Json.arr xs) :
    ((publishExtension st target env).2 = .ok (st, true)) ↔ Json.str "OK" ∈ xs := by
  rw [publish_truthy_eq st target env ht, hout]
  have h200b : (r.status_code == 200) = true := by simp [h200]
  have hcont : pyContains "OK" ((jsonLookup fields "status").getD (Json.arr []))
      = .ok (xs.any (fun x => pyEqStr (some x) "OK")) := by
    rw [hstatus]
    rfl
  have hb2 : (publishBody target (.response r)).2
      = xs.any (fun x => pyEqStr (some x) "OK") := by
    cases hany : xs.any (fun x => pyEqStr (some x) "OK") with
    | false => simp [publishBody, h200b, hbody, dictGet, hcont, hany]
    | true => simp [publishBody, h200b, hbody, dictGet, hcont, hany]
  rw [hb2]
  simp only [Except.ok.injEq, Prod.mk.injEq, true_and]
  rw [List.any_eq_true]
  constructor
  · rintro ⟨x, hx, hpx⟩
    rw [pyEqStr_iff] at hpx
    injection hpx with hpx2
    rw [← hpx2]
    exact hx
  · intro hm
    exact ⟨Json.str "OK", hm, by simp [pyEqStr]⟩

/-- Witness for C2 at a concrete input whose status list is `["OK"]`. -/
theorem publish_ok_iff_witness :
    (publishExtension (some (Json.str "t")) "default"
      ⟨HttpOutcome.transportError, true, HttpOutcome.transportError,
       HttpOutcome.response ⟨200, some (Json.obj [("status", Json.arr [Json.str "OK"])]), ""⟩,
       HttpOutcome.transportError⟩).2
      = .ok (some (Json.str "t"), true) :=
  (publish_ok_iff (some (Json.str "t")) "default" _ _
      [("status", Json.arr [Json.str "OK"])] [Json.str "OK"]
      rfl rfl rfl rfl rfl).mpr (by simp)

/-- C3: If the token endpoint's (non-error) response body is an object
without an `access_token` field, `_refresh_access_token` returns failure
(leaving `access_token = None`), and each of the three operations, started
without a token, returns its failure value having attempted only the token
request — no authorized HTTP call is issued. -/
theorem refresh_missing_token_fails (st : Option Json) (env : NetEnv)
    (r : Response) (fields : List (String × Json))
    (ht : optTruthy st = false) (hout : env.tokenOutcome = .response r)
    (hlt : r.status_code < 400) (hbody : r.jsonBody = some (Json.obj fields))
    (hmiss : jsonLookup fields "access_token" = none) :
    (refreshAccessToken st env.tokenOutcome).2 = .ok (none, false) ∧
    ((uploadExtension st env).2 = .ok (none, false) ∧
      requests (uploadExtension st env).1 = [Event.tokenReq]) ∧
    (∀ target, (publishExtension st target env).2 = .ok (none, false) ∧
      requests (publishExtension st target env).1 = [Event.tokenReq]) ∧
    ((getExtensionInfo st env).2 = .ok (none, none) ∧
      requests (getExtensionInfo st env).1 = [Event.tokenReq]) := by
  have hcond : ¬(400 ≤ r.status_code ∧ r.status_code < 600) := by omega
  have hrv : refreshAccessToken st env.tokenOutcome
      = ([Event.printMsg "🔑 Refreshing access token...", Event.tokenReq,
          Event.printMsg "❌ Failed to get access token from response"],
         .ok (none, false)) := by
    rw [hout]
    simp [refreshAccessToken, hcond, hbody, dictGet, hmiss, optTruthy]
  have hu : uploadExtension st env
      = ((refreshAccessToken st env.tokenOutcome).1, .ok (none, false)) := by
    unfold uploadExtension
    rw [if_neg (by simp [ht]), hrv]
  have hp : ∀ target, publishExtension st target env
      = ((refreshAccessToken st env.tokenOutcome).1, .ok (none, false)) := by
    intro target
    unfold publishExtension
    rw [if_neg (by simp [ht]), hrv]
  have hi : getExtensionInfo st env
      = ((refreshAccessToken st env.tokenOutcome).1, .ok (none, none)) := by
    unfold getExtensionInfo
    rw [if_neg (by simp [ht]), hrv]
  refine ⟨by rw [hrv], ⟨by rw [hu], ?_⟩, fun target => ⟨by rw [hp target], ?_⟩,
    ⟨by rw [hi], ?_⟩⟩
  · rw [hu]
    exact refresh_requests st env.tokenOutcome
  · rw [hp target]
    exact refresh_requests st env.tokenOutcome
  · rw [hi]
    exact refresh_requests st env.tokenOutcome

/-- Witness for C3: token endpoint answers 200 with an empty object. -/
theorem refresh_missing_token_fails_witness :
    (uploadExtension none
      ⟨HttpOutcome.response ⟨200, some (Json.obj []), ""⟩, true,
       HttpOutcome.transportError, HttpOutcome.transportError,
       HttpOutcome.transportError⟩).2
      = .ok (none, false) :=
  (refresh_missing_token_fails none _ ⟨200, some (Json.obj []), ""⟩ []
      rfl rfl (by decide) rfl rfl).2.1.1

/-- When credentials, `package.json` and the ZIP path all resolve, `main`
is exactly its dispatched action. -/
theorem mainRun_action_phase (action : CliAction) (zipArg : Option String)
    (getenv : String → Option String) (fs : FsEnv) (env : NetEnv)
    (hset : action ≠ CliAction.setup)
    (creds : String × String × String × String)
    (he : get_env_vars getenv = .ok creds)
    (v : Json) (hpi : get_project_info fs = .ok v)
    (hz : zipResolve zipArg fs = .ok ()) :
    mainRun action zipArg getenv fs env = runAction action env := by
  cases action with
  | setup => exact absurd rfl hset
  | info => unfold mainRun; rw [he]; dsimp only; rw [hpi]; dsimp only; rw [hz]
  | upload => unfold mainRun; rw [he]; dsimp only; rw [hpi]; dsimp only; rw [hz]
  | publish => unfold mainRun; rw [he]; dsimp only; rw [hpi]; dsimp only; rw [hz]
  | testers => unfold mainRun; rw [he]; dsimp only; rw [hpi]; dsimp only; rw [hz]

/-- C4 counterexample: a concrete run of the `info` action whose
`get_extension_info` call fails (transport error, result `None`) and whose
process exit code is nevertheless 0 — refuting "a failure of any action
(including the info action) yields exit code 1". -/
theorem info_failure_exit_zero :
    (getExtensionInfo none
        ⟨HttpOutcome.response ⟨200, some (Json.obj [("access_token", Json.str "tok")]), ""⟩,
         true, HttpOutcome.transportError, HttpOutcome.transportError,
         HttpOutcome.transportError⟩).2
      = .ok (some (Json.str "tok"), none) ∧
    (mainRun CliAction.info none (fun _ => some "x")
        ⟨true, some (Json.obj []), true, true⟩
        ⟨HttpOutcome.response ⟨200, some (Json.obj [("access_token", Json.str "tok")]), ""⟩,
         true, HttpOutcome.transportError, HttpOutcome.transportError,
         HttpOutcome.transportError⟩).2 = 0 :=
  ⟨rfl, rfl⟩

/-- C4 as amended: once the run reaches the network phase, the `upload`,
`publish` and `testers` actions exit 0 exactly when their operations
succeed and 1 on failure, but a failed `info` fetch exits 0 (the failure is
only reported by a printed diagnostic). -/
theorem main_exit_codes (zipArg : Option String)
    (getenv : String → Option String) (fs : FsEnv) (env : NetEnv)
    (creds : String × String × String × String) (v : Json)
    (he : get_env_vars getenv = .ok creds)
    (hpi : get_project_info fs = .ok v)
    (hz : zipResolve zipArg fs = .ok ()) :
    (∀ evs tok b, uploadExtension none env = (evs, .ok (tok, b)) →
      (mainRun CliAction.upload zipArg getenv fs env).2 = if b then 0 else 1) ∧
    (∀ uevs tok, uploadExtension none env = (uevs, .ok (tok, true)) →
      ∀ pevs tok2 b, publishExtension tok "default" env = (pevs, .ok (tok2, b)) →
      (mainRun CliAction.publish zipArg getenv fs env).2 = if b then 0 else 1) ∧
    (∀ uevs tok, uploadExtension none env = (uevs, .ok (tok, true)) →
      ∀ pevs tok2 b, publishExtension tok "testers" env = (pevs, .ok (tok2, b)) →
      (mainRun CliAction.testers zipArg getenv fs env).2 = if b then 0 else 1) ∧
    (∀ uevs tok, uploadExtension none env = (uevs, .ok (tok, false)) →
      (mainRun CliAction.publish zipArg getenv fs env).2 = 1 ∧
      (mainRun CliAction.testers zipArg getenv fs env).2 = 1) ∧
    (∀ ievs tok, getExtensionInfo none env = (ievs, .ok (tok, none)) →
      (mainRun CliAction.info zipArg getenv fs env).2 = 0) := by
  refine ⟨?_, ?_, ?_, ?_, ?_⟩
  · intro evs tok b hu
    rw [mainRun_action_phase CliAction.upload zipArg getenv fs env (by decide)
      creds he v hpi hz]
    show (uploadAction env).2 = if b then 0 else 1
    unfold uploadAction
    rw [hu]
    cases b <;> rfl
  · intro uevs tok hu pevs tok2 b hp
    rw [mainRun_action_phase CliAction.publish zipArg getenv fs env (by decide)
      creds he v hpi hz]
    show (mainPublish "default" env).2 = if b then 0 else 1
    unfold mainPublish
    rw [hu]
    dsimp only
    rw [hp]
    cases b <;> rfl
  · intro uevs tok hu pevs tok2 b hp
    rw [mainRun_action_phase CliAction.testers zipArg getenv fs env (by decide)
      creds he v hpi hz]
    show (mainPublish "testers" env).2 = if b then 0 else 1
    unfold mainPublish
    rw [hu]
    dsimp only
    rw [hp]
    cases b <;> rfl
  · intro uevs tok hu
    constructor
    · rw [mainRun_action_phase CliAction.publish zipArg getenv fs env (by decide)
        creds he v hpi hz]
      show (mainPublish "default" env).2 = 1
      rw [mainPublish_upload_false "default" env tok uevs hu]
    · rw [mainRun_action_phase CliAction.testers zipArg getenv fs env (by decide)
        creds he v hpi hz]
      show (mainPublish "testers" env).2 = 1
      rw [mainPublish_upload_false "testers" env tok uevs hu]
  · intro ievs tok hi
    rw [mainRun_action_phase CliAction.info zipArg getenv fs env (by decide)
      creds he v hpi hz]
    show (infoAction env).2 = 0
    unfold infoAction
    rw [hi]
    simp [optTruthy]

/-- Witness for the amended C4 at a concrete successful upload run. -/
theorem main_exit_codes_witness :
    (mainRun CliAction.upload none (fun _ => some "x")
        ⟨true, some (Json.obj []), true, true⟩
        ⟨HttpOutcome.response ⟨200, some (Json.obj [("access_token", Json.str "tok")]), ""⟩,
         true,
         HttpOutcome.response ⟨200, some (Json.obj [("uploadState", Json.str "SUCCESS")]), ""⟩,
         HttpOutcome.transportError, HttpOutcome.transportError⟩).2 = 0 :=
  (main_exit_codes none (fun _ => some "x")
      ⟨true, some (Json.obj []), true, true⟩ _
      ("x", "x", "x", "x") (Json.str "1.0.0") rfl rfl rfl).1
    _ (some (Json.str "tok")) true rfl

theorem pyEnvTruthy_getD_ne (o : Option String) (h : pyEnvTruthy o = true) :
    o.getD "" ≠ "" := by
  cases o with
  | none => simp [pyEnvTruthy] at h
  | some s =>
    simp [pyEnvTruthy] at h
    simpa using h

/-- C5: whenever `get_env_vars` returns, all four credential values are
non-empty; and whenever it halts (any required variable missing or empty),
every non-setup action exits with code 1 before any network call (empty
event trace). -/
theorem get_env_vars_nonempty (getenv : String → Option String) :
    (∀ a b c d, get_env_vars getenv = .ok (a, b, c, d) →
      a ≠ "" ∧ b ≠ "" ∧ c ≠ "" ∧ d ≠ "") ∧
    (get_env_vars getenv = .error 1 →
      ∀ action zipArg fs env, action ≠ CliAction.setup →
        mainRun action zipArg getenv fs env = ([], 1)) := by
  constructor
  · intro a b c d h
    unfold get_env_vars at h
    by_cases h1 : pyEnvTruthy (getenv "CWS_CLIENT_ID") = true
    swap
    · simp [List.filter, h1] at h
    by_cases h2 : pyEnvTruthy (getenv "CWS_CLIENT_SECRET") = true
    swap
    · simp [List.filter, h1, h2] at h
    by_cases h3 : pyEnvTruthy (getenv "CWS_REFRESH_TOKEN") = true
    swap
    · simp [List.filter, h1, h2, h3] at h
    by_cases h4 : pyEnvTruthy (getenv "CWS_EXTENSION_ID") = true
    swap
    · simp [List.filter, h1, h2, h3, h4] at h
    simp [List.filter, h1, h2, h3, h4] at h
    obtain ⟨ha, hb, hc, hd⟩ := h
    exact ⟨ha ▸ pyEnvTruthy_getD_ne _ h1, hb ▸ pyEnvTruthy_getD_ne _ h2,
           hc ▸ pyEnvTruthy_getD_ne _ h3, hd ▸ pyEnvTruthy_getD_ne _ h4⟩
  · intro h action zipArg fs env hset
    cases action with
    | setup => exact absurd rfl hset
    | info => unfold mainRun; rw [h]
    | upload => unfold mainRun; rw [h]
    | publish => unfold mainRun; rw [h]
    | testers => unfold mainRun; rw [h]

/-- Witness for C5: a fully set environment yields non-empty values; a fully
unset one halts the `upload` action with exit 1 and an empty trace. -/
theorem get_env_vars_nonempty_witness :
    ("x" ≠ "" ∧ "x" ≠ "" ∧ "x" ≠ "" ∧ "x" ≠ "") ∧
    mainRun CliAction.upload none (fun _ => none)
      ⟨true, some (Json.obj []), true, true⟩
      ⟨HttpOutcome.transportError, true, HttpOutcome.transportError,
       HttpOutcome.transportError, HttpOutcome.transportError⟩ = ([], 1) :=
  ⟨(get_env_vars_nonempty (fun _ => some "x")).1 "x" "x" "x" "x" rfl,
   (get_env_vars_nonempty (fun _ => none)).2 rfl CliAction.upload none _ _ (by decide)⟩

/-- Number of occurrences of the trusted-tester query parameter across the
publish requests of a trace. -/
def trustedTesterCount (evs : List Event) : Nat :=
  (evs.map (fun e => match e with
    | .publishReq ps => ps.count ("publishTarget", "trustedTesters")
    | _ => 0)).sum

theorem trustedTesterCount_cons (e : Event) (t : List Event) :
    trustedTesterCount (e :: t)
      = (match e with
         | .publishReq ps => ps.count ("publishTarget", "trustedTesters")
         | _ => 0) + trustedTesterCount t := by
  simp [trustedTesterCount]

theorem trustedTesterCount_append (a b : List Event) :
    trustedTesterCount (a ++ b)
      = trustedTesterCount a + trustedTesterCount b := by
  simp [trustedTesterCount]

theorem trustedTesterCount_eq_zero (evs : List Event)
    (h : ∀ ps, Event.publishReq ps ∉ evs) : trustedTesterCount evs = 0 := by
  induction evs with
  | nil => rfl
  | cons e t ih =>
    rw [trustedTesterCount_cons]
    have ht : ∀ ps, Event.publishReq ps ∉ t :=
      fun ps hps => h ps (List.mem_cons_of_mem e hps)
    rw [ih ht]
    cases e with
    | publishReq ps => exact absurd (List.mem_cons_self _ _) (h ps)
    | tokenReq => rfl
    | uploadReq => rfl
    | infoReq => rfl
    | printMsg m => rfl

/-- The upload operation never attempts a publish request. -/
theorem upload_no_publishReq (st : Option Json) (env : NetEnv)
    (ps : List (String × String)) :
    Event.publishReq ps ∉ (uploadExtension st env).1 := by
  intro hmem
  have hreq : Event.publishReq ps ∈ requests (uploadExtension st env).1 :=
    List.mem_filter.mpr ⟨hmem, rfl⟩
  cases htok : optTruthy st with
  | true =>
    rw [upload_requests_truthy st env htok] at hreq
    cases hz : env.zipReadOk <;> rw [hz] at hreq <;> simp at hreq
  | false =>
    rcases upload_requests_refresh st env htok with ⟨rest, hr, hd⟩
    rw [hr] at hreq
    rcases hd with h | h
    · rw [h] at hreq; simp at hreq
    · cases hz : env.zipReadOk <;> rw [hz] at h <;> rw [h] at hreq <;> simp at hreq

/-- The info operation never attempts a publish request. -/
theorem info_no_publishReq (st : Option Json) (env : NetEnv)
    (ps : List (String × String)) :
    Event.publishReq ps ∉ (getExtensionInfo st env).1 := by
  intro hmem
  have hreq : Event.publishReq ps ∈ requests (getExtensionInfo st env).1 :=
    List.mem_filter.mpr ⟨hmem, rfl⟩
  cases htok : optTruthy st with
  | true =>
    rw [info_requests_truthy st env htok] at hreq
    simp at hreq
  | false =>
    rcases info_requests_refresh st env htok with ⟨rest, hr, hd⟩
    rw [hr] at hreq
    rcases hd with h | h <;> rw [h] at hreq <;> simp at hreq

/-- Each run of the publish request body carries exactly the query
parameters selected by the target. -/
theorem publishBody_ttc (target : String) (out : HttpOutcome) :
    trustedTesterCount (publishBody target out).1
      = (publishParams target).count ("publishTarget", "trustedTesters") := by
  unfold publishBody
  cases out with
  | transportError => simp [trustedTesterCount]
  | response r =>
    by_cases h : r.status_code == 200
    · cases hb : r.jsonBody with
      | none => simp [h, hb, trustedTesterCount]
      | some result =>
        cases hg : dictGet result "status" with
        | error e => simp [h, hb, hg, trustedTesterCount]
        | ok st =>
          cases hc : pyContains "OK" (st.getD (Json.arr [])) with
          | error e => simp [h, hb, hg, hc, trustedTesterCount]
          | ok b => cases b <;> simp [h, hb, hg, hc, trustedTesterCount]
    · simp [h, trustedTesterCount]

/-- Trace of the upload-then-publish driver when the upload succeeded. -/
theorem mainPublish_fst_upload_true (target : String) (env : NetEnv)
    (tok : Option Json) (uevs : List Event)
    (hu : uploadExtension none env = (uevs, .ok (tok, true))) :
    (mainPublish target env).1 = uevs ++ (publishExtension tok target env).1 := by
  unfold mainPublish
  rw [hu]
  dsimp only
  rcases hp : publishExtension tok target env with ⟨pevs, pres⟩
  cases pres with
  | error e => rfl
  | ok q => rcases q with ⟨t2, b2⟩; cases b2 <;> rfl

/-- C6: Once a run reaches its network phase and the upload succeeds, the
`testers` action sends the `publishTarget=trustedTesters` query parameter
exactly once, and the `publish`, `upload` and `info` actions never send it. -/
theorem trusted_testers_param (zipArg : Option String)
    (getenv : String → Option String) (fs : FsEnv) (env : NetEnv)
    (creds : String × String × String × String) (v : Json)
    (he : get_env_vars getenv = .ok creds)
    (hpi : get_project_info fs = .ok v)
    (hz : zipResolve zipArg fs = .ok ())
    (uevs : List Event) (tok : Option Json)
    (hu : uploadExtension none env = (uevs, .ok (tok, true))) :
    trustedTesterCount (mainRun CliAction.testers zipArg getenv fs env).1 = 1 ∧
    trustedTesterCount (mainRun CliAction.publish zipArg getenv fs env).1 = 0 ∧
    trustedTesterCount (mainRun CliAction.upload zipArg getenv fs env).1 = 0 ∧
    trustedTesterCount (mainRun CliAction.info zipArg getenv fs env).1 = 0 := by
  have htt := upload_true_truthy none env tok uevs hu
  have huz : trustedTesterCount uevs = 0 := by
    refine trustedTesterCount_eq_zero uevs (fun ps hps => ?_)
    have hn := upload_no_publishReq none env ps
    rw [hu] at hn
    exact hn hps
  have hp1 : ∀ target, (publishExtension tok target env).1
      = (publishBody target env.publishOutcome).1 := by
    intro target
    rw [publish_truthy_eq tok target env htt]
  refine ⟨?_, ?_, ?_, ?_⟩
  · rw [mainRun_action_phase CliAction.testers zipArg getenv fs env (by decide)
      creds he v hpi hz]
    show trustedTesterCount (mainPublish "testers" env).1 = 1
    rw [mainPublish_fst_upload_true "testers" env tok uevs hu,
      trustedTesterCount_append, huz, hp1 "testers", publishBody_ttc]
    decide
  · rw [mainRun_action_phase CliAction.publish zipArg getenv fs env (by decide)
      creds he v hpi hz]
    show trustedTesterCount (mainPublish "default" env).1 = 0
    rw [mainPublish_fst_upload_true "default" env tok uevs hu,
      trustedTesterCount_append, huz, hp1 "default", publishBody_ttc]
    decide
  · rw [mainRun_action_phase CliAction.upload zipArg getenv fs env (by decide)
      creds he v hpi hz]
    show trustedTesterCount (uploadAction env).1 = 0
    rw [uploadAction_fst, hu]
    exact huz
  · rw [mainRun_action_phase CliAction.info zipArg getenv fs env (by decide)
      creds he v hpi hz]
    show trustedTesterCount (infoAction env).1 = 0
    rw [infoAction_fst]
    exact trustedTesterCount_eq_zero _ (fun ps => info_no_publishReq none env ps)

/-- Witness for C6 at a concrete run whose upload succeeds. -/
theorem trusted_testers_param_witness :
    trustedTesterCount (mainRun CliAction.testers none (fun _ => some "x")
      ⟨true, some (Json.obj []), true, true⟩
      ⟨HttpOutcome.response ⟨200, some (Json.obj [("access_token", Json.str "tok")]), ""⟩,
       true,
       HttpOutcome.response ⟨200, some (Json.obj [("uploadState", Json.str "SUCCESS")]), ""⟩,
       HttpOutcome.transportError, HttpOutcome.transportError⟩).1 = 1 :=
  (trusted_testers_param none (fun _ => some "x")
      ⟨true, some (Json.obj []), true, true⟩ _
      ("x", "x", "x", "x") (Json.str "1.0.0") rfl rfl rfl
      _ (some (Json.str "tok")) rfl).1

/-- The first HTTP request of a trace, if any, is the token-refresh
request. -/
def firstRequestIsToken (evs : List Event) : Bool :=
  match requests evs with
  | [] => true
  | Event.tokenReq :: _ => true
  | _ => false

/-- C7: an operation started without an access token attempts the token
refresh before its authorized HTTP call — its first request is the token
request; and in a full `main` run (where the publisher always starts with
`access_token = None`) no authorized request is ever issued before a token
request has been attempted. -/
theorem refresh_before_authorized (st : Option Json) (env : NetEnv)
    (ht : optTruthy st = false) :
    ((requests (uploadExtension st env).1).head? = some Event.tokenReq) ∧
    (∀ target,
      (requests (publishExtension st target env).1).head? = some Event.tokenReq) ∧
    ((requests (getExtensionInfo st env).1).head? = some Event.tokenReq) ∧
    (∀ action zipArg getenv fs,
      firstRequestIsToken (mainRun action zipArg getenv fs env).1 = true) := by
  refine ⟨?_, ?_, ?_, ?_⟩
  · rcases upload_requests_refresh st env ht with ⟨rest, hr, _⟩
    rw [hr]
    rfl
  · intro target
    rcases publish_requests_refresh st target env ht with ⟨rest, hr, _⟩
    rw [hr]
    rfl
  · rcases info_requests_refresh st env ht with ⟨rest, hr, _⟩
    rw [hr]
    rfl
  · intro action zipArg getenv fs
    rcases mainRun_requests action zipArg getenv fs env with h | ⟨rest, hr, _⟩
    · unfold firstRequestIsToken
      rw [h]
    · unfold firstRequestIsToken
      rw [hr]

/-- Witness for C7 at a concrete token-less upload run. -/
theorem refresh_before_authorized_witness :
    (requests (uploadExtension none
      ⟨HttpOutcome.response ⟨200, some (Json.obj [("access_token", Json.str "tok")]), ""⟩,
       true,
       HttpOutcome.response ⟨200, some (Json.obj [("uploadState", Json.str "SUCCESS")]), ""⟩,
       HttpOutcome.transportError, HttpOutcome.transportError⟩).1).head?
      = some Event.tokenReq ∧
    firstRequestIsToken (mainRun CliAction.upload none (fun _ => some "x")
      ⟨true, some (Json.obj []), true, true⟩
      ⟨HttpOutcome.response ⟨200, some (Json.obj [("access_token", Json.str "tok")]), ""⟩,
       true,
       HttpOutcome.response ⟨200, some (Json.obj [("uploadState", Json.str "SUCCESS")]), ""⟩,
       HttpOutcome.transportError, HttpOutcome.transportError⟩).1 = true :=
  ⟨(refresh_before_authorized none _ rfl).1,
   (refresh_before_authorized none _ rfl).2.2.2 CliAction.upload none (fun _ => some "x")
     ⟨true, some (Json.obj []), true, true⟩⟩

/-- Whether a modelled Python computation returned normally (as opposed to
raising an exception). -/
def isOkResult {α : Type} : Except PyExc α → Bool
  | .ok _ => true
  | .error _ => false

/-- The one condition under which `_refresh_access_token` raises (rather
than returning a boolean): a response that `raise_for_status` lets through,
with a JSON body that is not an object, so that `.get` raises
`AttributeError`. -/
def refreshRaises (out : HttpOutcome) : Bool :=
  match out with
  | .transportError => false
  | .response r =>
      if 400 ≤ r.status_code ∧ r.status_code < 600 then false
      else
        match r.jsonBody with
        | none => false
        | some j =>
            match j with
            | .obj _ => false
            | _ => true

theorem refresh_isOk (st : Option Json) (out : HttpOutcome)
    (h : refreshRaises out = false) :
    isOkResult (refreshAccessToken st out).2 = true := by
  unfold refreshRaises at h
  unfold refreshAccessToken
  cases out with
  | transportError => rfl
  | response r =>
    dsimp only at h ⊢
    by_cases hc : 400 ≤ r.status_code ∧ r.status_code < 600
    · simp [hc, isOkResult]
    · rw [if_neg hc] at h
      cases hb : r.jsonBody with
      | none => simp [hc, hb, isOkResult]
      | some j =>
        rw [hb] at h
        cases j with
        | obj fields =>
          by_cases ht : optTruthy (jsonLookup fields "access_token") = true <;>
            simp [hc, hb, dictGet, ht, isOkResult]
        | null => simp at h
        | bool b => simp at h
        | num n => simp at h
        | str s => simp at h
        | arr elems => simp at h

theorem isOkResult_true {α : Type} (e : Except PyExc α)
    (h : isOkResult e = true) : ∃ a, e = .ok a := by
  cases e with
  | ok a => exact ⟨a, rfl⟩
  | error ex => simp [isOkResult] at h

/-- The four request-kind predicates, used to state that no endpoint is
attempted twice in one run. -/
def isTokenReq : Event → Bool
  | .tokenReq => true
  | _ => false

def isUploadReq : Event → Bool
  | .uploadReq => true
  | _ => false

def isPublishReq : Event → Bool
  | .publishReq _ => true
  | _ => false

def isInfoReq : Event → Bool
  | .infoReq => true
  | _ => false

/-- Counting a kind of request over a trace equals counting it over the
trace's requests. -/
theorem countP_eq_countP_requests (p : Event → Bool)
    (hp : ∀ e, p e = true → isRequest e = true) (evs : List Event) :
    evs.countP p = (requests evs).countP p := by
  induction evs with
  | nil => rfl
  | cons e t ih =>
    by_cases hpe : p e = true
    · have hre := hp e hpe
      simp [requests, List.filter_cons, List.countP_cons, hpe, hre] at *
      omega
    · have hpe2 : p e = false := by
        cases hv : p e
        · rfl
        · exact absurd hv hpe
      cases hre : isRequest e <;>
        simp [requests, List.filter_cons, List.countP_cons, hpe2, hre] at * <;>
        omega

theorem upload_isOk (st : Option Json) (env : NetEnv)
    (h : optTruthy st = true ∨ refreshRaises env.tokenOutcome = false) :
    isOkResult (uploadExtension st env).2 = true := by
  by_cases htok : optTruthy st = true
  · rw [upload_truthy_eq st env htok]
    rfl
  · have hb : refreshRaises env.tokenOutcome = false := by
      rcases h with h | h
      · exact absurd h htok
      · exact h
    unfold uploadExtension
    rw [if_neg htok]
    rcases hr : refreshAccessToken st env.tokenOutcome with ⟨revs, res⟩
    have hok := refresh_isOk st env.tokenOutcome hb
    rw [hr] at hok
    cases res with
    | error e => simp [isOkResult] at hok
    | ok q =>
      rcases q with ⟨t, b⟩
      cases b with
      | true => rfl
      | false => rfl

theorem publish_isOk (st : Option Json) (target : String) (env : NetEnv)
    (h : optTruthy st = true ∨ refreshRaises env.tokenOutcome = false) :
    isOkResult (publishExtension st target env).2 = true := by
  by_cases htok : optTruthy st = true
  · rw [publish_truthy_eq st target env htok]
    rfl
  · have hb : refreshRaises env.tokenOutcome = false := by
      rcases h with h | h
      · exact absurd h htok
      · exact h
    unfold publishExtension
    rw [if_neg htok]
    rcases hr : refreshAccessToken st env.tokenOutcome with ⟨revs, res⟩
    have hok := refresh_isOk st env.tokenOutcome hb
    rw [hr] at hok
    cases res with
    | error e => simp [isOkResult] at hok
    | ok q =>
      rcases q with ⟨t, b⟩
      cases b with
      | true => rfl
      | false => rfl

theorem info_isOk (st : Option Json) (env : NetEnv)
    (h : optTruthy st = true ∨ refreshRaises env.tokenOutcome = false) :
    isOkResult (getExtensionInfo st env).2 = true := by
  by_cases htok : optTruthy st = true
  · rw [info_truthy_eq st env htok]
    rfl
  · have hb : refreshRaises env.tokenOutcome = false := by
      rcases h with h | h
      · exact absurd h htok
      · exact h
    unfold getExtensionInfo
    rw [if_neg htok]
    rcases hr : refreshAccessToken st env.tokenOutcome with ⟨revs, res⟩
    have hok := refresh_isOk st env.tokenOutcome hb
    rw [hr] at hok
    cases res with
    | error e => simp [isOkResult] at hok
    | ok q =>
      rcases q with ⟨t, b⟩
      cases b with
      | true => rfl
      | false => rfl

/-- Within one `main` run, no endpoint is ever attempted twice. -/
theorem mainRun_noRetry (action : CliAction) (zipArg : Option String)
    (getenv : String → Option String) (fs : FsEnv) (env : NetEnv) :
    (mainRun action zipArg getenv fs env).1.countP isTokenReq ≤ 1 ∧
    (mainRun action zipArg getenv fs env).1.countP isUploadReq ≤ 1 ∧
    (mainRun action zipArg getenv fs env).1.countP isPublishReq ≤ 1 ∧
    (mainRun action zipArg getenv fs env).1.countP isInfoReq ≤ 1 := by
  have htk := countP_eq_countP_requests isTokenReq
    (by intro e he; cases e <;> simp [isTokenReq, isRequest] at he ⊢)
    (mainRun action zipArg getenv fs env).1
  have hup := countP_eq_countP_requests isUploadReq
    (by intro e he; cases e <;> simp [isUploadReq, isRequest] at he ⊢)
    (mainRun action zipArg getenv fs env).1
  have hpb := countP_eq_countP_requests isPublishReq
    (by intro e he; cases e <;> simp [isPublishReq, isRequest] at he ⊢)
    (mainRun action zipArg getenv fs env).1
  have hin := countP_eq_countP_requests isInfoReq
    (by intro e he; cases e <;> simp [isInfoReq, isRequest] at he ⊢)
    (mainRun action zipArg getenv fs env).1
  rw [htk, hup, hpb, hin]
  rcases mainRun_requests action zipArg getenv fs env with h | ⟨rest, hr, hd⟩
  · rw [h]
    simp
  · rw [hr]
    rcases hd with h | h | h | ⟨ps, h⟩ <;> subst h <;>
      refine ⟨?_, ?_, ?_, ?_⟩ <;>
      simp [List.countP_cons, isTokenReq, isUploadReq, isPublishReq, isInfoReq]

/-- C8 counterexample: on the input whose token-endpoint answer is HTTP 200
with the JSON body `[]` (a list, not an object), `upload_extension` started
without a token does not return a boolean — the `AttributeError` raised by
`token_data.get` inside `_refresh_access_token` propagates out of it
(line 77 sits outside the `try` block of `upload_extension`). -/
theorem upload_raises_on_nondict_token_body :
    (uploadExtension none
      ⟨HttpOutcome.response ⟨200, some (Json.arr []), ""⟩, true,
       HttpOutcome.transportError, HttpOutcome.transportError,
       HttpOutcome.transportError⟩).2
      = .error PyExc.attributeError :=
  rfl

/-- C8 as amended: the three operations return their boolean / document
failure value — never an exception — except in the one corner where the
lazily-invoked token refresh receives a non-error response whose JSON body
is not an object (then an `AttributeError` propagates); network/transport
errors and non-200 responses, in particular, never propagate: with a token
in hand they uniformly yield the failure value plus a printed diagnostic;
and no endpoint is ever attempted twice within one process run. -/
theorem ops_uniform_failure (st : Option Json) (env : NetEnv) :
    ((optTruthy st = true ∨ refreshRaises env.tokenOutcome = false) →
      isOkResult (uploadExtension st env).2 = true ∧
      (∀ target, isOkResult (publishExtension st target env).2 = true) ∧
      isOkResult (getExtensionInfo st env).2 = true) ∧
    (optTruthy st = true →
      (env.uploadOutcome = .transportError →
        (uploadExtension st env).2 = .ok (st, false) ∧
        Event.printMsg "❌ Error uploading extension:" ∈ (uploadExtension st env).1) ∧
      (∀ r, env.uploadOutcome = .response r → r.status_code ≠ 200 →
        env.zipReadOk = true →
        (uploadExtension st env).2 = .ok (st, false) ∧
        Event.printMsg "❌ HTTP Error:" ∈ (uploadExtension st env).1) ∧
      (∀ target, env.publishOutcome = .transportError →
        (publishExtension st target env).2 = .ok (st, false) ∧
        Event.printMsg "❌ Error publishing extension:"
          ∈ (publishExtension st target env).1) ∧
      (∀ target r, env.publishOutcome = .response r → r.status_code ≠ 200 →
        (publishExtension st target env).2 = .ok (st, false) ∧
        Event.printMsg "❌ HTTP Error:" ∈ (publishExtension st target env).1) ∧
      (env.infoOutcome = .transportError →
        (getExtensionInfo st env).2 = .ok (st, none) ∧
        Event.printMsg "❌ Error fetching extension info:"
          ∈ (getExtensionInfo st env).1) ∧
      (∀ r, env.infoOutcome = .response r → r.status_code ≠ 200 →
        (getExtensionInfo st env).2 = .ok (st, none) ∧
        Event.printMsg "❌ HTTP Error:" ∈ (getExtensionInfo st env).1)) ∧
    (∀ action zipArg getenv fs,
      (mainRun action zipArg getenv fs env).1.countP isTokenReq ≤ 1 ∧
      (mainRun action zipArg getenv fs env).1.countP isUploadReq ≤ 1 ∧
      (mainRun action zipArg getenv fs env).1.countP isPublishReq ≤ 1 ∧
      (mainRun action zipArg getenv fs env).1.countP isInfoReq ≤ 1) := by
  refine ⟨?_, ?_, ?_⟩
  · intro h
    exact ⟨upload_isOk st env h, fun target => publish_isOk st target env h,
           info_isOk st env h⟩
  · intro htok
    refine ⟨?_, ?_, ?_, ?_, ?_, ?_⟩
    · intro hout
      rw [upload_truthy_eq st env htok, hout]
      cases hz : env.zipReadOk <;> simp [uploadBody]
    · intro r hout hne hzt
      have h200 : (r.status_code == 200) = false := by simp [hne]
      rw [upload_truthy_eq st env htok, hout, hzt]
      simp [uploadBody, h200]
    · intro target hout
      rw [publish_truthy_eq st target env htok, hout]
      simp [publishBody]
    · intro target r hout hne
      have h200 : (r.status_code == 200) = false := by simp [hne]
      rw [publish_truthy_eq st target env htok, hout]
      simp [publishBody, h200]
    · intro hout
      rw [info_truthy_eq st env htok, hout]
      simp [infoBody]
    · intro r hout hne
      have h200 : (r.status_code == 200) = false := by simp [hne]
      rw [info_truthy_eq st env htok, hout]
      simp [infoBody, h200]
  · intro action zipArg getenv fs
    exact mainRun_noRetry action zipArg getenv fs env

/-- Witness for the amended C8: a transport error during the upload, with a
token in hand, yields the failure value and its diagnostic. -/
theorem ops_uniform_failure_witness :
    (uploadExtension (some (Json.str "t"))
      ⟨HttpOutcome.transportError, true, HttpOutcome.transportError,
       HttpOutcome.transportError, HttpOutcome.transportError⟩).2
      = .ok (some (Json.str "t"), false) ∧
    Event.printMsg "❌ Error uploading extension:"
      ∈ (uploadExtension (some (Json.str "t"))
        ⟨HttpOutcome.transportError, true, HttpOutcome.transportError,
         HttpOutcome.transportError, HttpOutcome.transportError⟩).1 :=
  (ops_uniform_failure (some (Json.str "t")) _).2.1 rfl |>.1 rfl

/-- C9: for the `publish` and `testers` actions (once the run reaches its
network phase), the publish request is issued only after the upload
succeeded in the same run: a failed upload makes the run exit 1 with no
publish request attempted, and any publish request in the trace implies the
upload returned success. -/
theorem publish_only_after_upload (zipArg : Option String)
    (getenv : String → Option String) (fs : FsEnv) (env : NetEnv)
    (creds : String × String × String × String) (v : Json)
    (he : get_env_vars getenv = .ok creds)
    (hpi : get_project_info fs = .ok v)
    (hz : zipResolve zipArg fs = .ok ())
    (action : CliAction)
    (haction : action = CliAction.publish ∨ action = CliAction.testers) :
    (∀ uevs tok, uploadExtension none env = (uevs, .ok (tok, false)) →
      mainRun action zipArg getenv fs env = (uevs, 1) ∧
      ∀ ps, Event.publishReq ps ∉ (mainRun action zipArg getenv fs env).1) ∧
    (∀ ps, Event.publishReq ps ∈ (mainRun action zipArg getenv fs env).1 →
      ∃ uevs tok, uploadExtension none env = (uevs, .ok (tok, true))) := by
  have hkey : ∀ target,
      (∀ uevs tok, uploadExtension none env = (uevs, .ok (tok, false)) →
        mainPublish target env = (uevs, 1) ∧
        ∀ ps, Event.publishReq ps ∉ (mainPublish target env).1) ∧
      (∀ ps, Event.publishReq ps ∈ (mainPublish target env).1 →
        ∃ uevs tok, uploadExtension none env = (uevs, .ok (tok, true))) := by
    intro target
    constructor
    · intro uevs tok hu
      have hm := mainPublish_upload_false target env tok uevs hu
      refine ⟨hm, fun ps hps => ?_⟩
      rw [hm] at hps
      have hn := upload_no_publishReq none env ps
      rw [hu] at hn
      exact hn hps
    · intro ps hps
      rcases hu : uploadExtension none env with ⟨uevs, ures⟩
      cases ures with
      | error e =>
        rw [mainPublish_upload_error target env e uevs hu] at hps
        have hn := upload_no_publishReq none env ps
        rw [hu] at hn
        exact absurd hps hn
      | ok q =>
        rcases q with ⟨tok, b⟩
        cases b with
        | false =>
          rw [mainPublish_upload_false target env tok uevs hu] at hps
          have hn := upload_no_publishReq none env ps
          rw [hu] at hn
          exact absurd hps hn
        | true => exact ⟨uevs, tok, rfl⟩
  rcases haction with h | h
  · subst h
    rw [mainRun_action_phase CliAction.publish zipArg getenv fs env (by decide)
      creds he v hpi hz]
    exact hkey "default"
  · subst h
    rw [mainRun_action_phase CliAction.testers zipArg getenv fs env (by decide)
      creds he v hpi hz]
    exact hkey "testers"

/-- Witness for C9: a run whose token refresh fails, so the upload returns
`False`; the publish action exits 1 with only the token request attempted. -/
theorem publish_only_after_upload_witness :
    mainRun CliAction.publish none (fun _ => some "x")
      ⟨true, some (Json.obj []), true, true⟩
      ⟨HttpOutcome.transportError, true, HttpOutcome.transportError,
       HttpOutcome.transportError, HttpOutcome.transportError⟩
      = ([Event.printMsg "🔑 Refreshing access token...", Event.tokenReq,
          Event.printMsg "❌ Error refreshing token:"], 1) :=
  ((publish_only_after_upload none (fun _ => some "x")
      ⟨true, some (Json.obj []), true, true⟩
      ⟨HttpOutcome.transportError, true, HttpOutcome.transportError,
       HttpOutcome.transportError, HttpOutcome.transportError⟩
      ("x", "x", "x", "x") (Json.str "1.0.0") rfl rfl rfl
      CliAction.publish (Or.inl rfl)).1
    [Event.printMsg "🔑 Refreshing access token...", Event.tokenReq,
     Event.printMsg "❌ Error refreshing token:"] none rfl).1

theorem get_env_vars_error_code (getenv : String → Option String) (c : Nat)
    (h : get_env_vars getenv = .error c) : c = 1 := by
  unfold get_env_vars at h
  by_cases hi : (["CWS_CLIENT_ID", "CWS_CLIENT_SECRET", "CWS_REFRESH_TOKEN",
      "CWS_EXTENSION_ID"].filter (fun v => !pyEnvTruthy (getenv v))).isEmpty = true
  · rw [if_pos hi] at h
    cases h
  · rw [if_neg hi] at h
    injection h with h2
    exact h2.symm

/-- C10: for every non-setup action, even with an explicit `--zip` path the
run still reads `package.json` and exits 1 with no network call when it is
missing; and when the supplied path is an actual (non-empty) path — so that
`if args.zip:` takes the override branch — the run is independent of
whether the deterministically named ZIP exists under `builds/`. -/
theorem zip_override_reads_package_json (action : CliAction) (zp : String)
    (getenv : String → Option String) (fs : FsEnv) (env : NetEnv)
    (hset : action ≠ CliAction.setup) (hzp : zp ≠ "") :
    (fs.packageJsonExists = false →
      mainRun action (some zp) getenv fs env = ([], 1)) ∧
    (∀ fs2 : FsEnv, fs2.packageJsonExists = fs.packageJsonExists →
      fs2.packageJsonRead = fs.packageJsonRead →
      fs2.zipArgExists = fs.zipArgExists →
      mainRun action (some zp) getenv fs2 env
        = mainRun action (some zp) getenv fs env) := by
  constructor
  · intro hmiss
    have hpi : get_project_info fs = .error 1 := by
      unfold get_project_info
      rw [hmiss]
      rfl
    cases action with
    | setup => exact absurd rfl hset
    | info =>
      unfold mainRun
      rcases he : get_env_vars getenv with c | creds
      · rw [get_env_vars_error_code getenv c he]
      · rw [hpi]
    | upload =>
      unfold mainRun
      rcases he : get_env_vars getenv with c | creds
      · rw [get_env_vars_error_code getenv c he]
      · rw [hpi]
    | publish =>
      unfold mainRun
      rcases he : get_env_vars getenv with c | creds
      · rw [get_env_vars_error_code getenv c he]
      · rw [hpi]
    | testers =>
      unfold mainRun
      rcases he : get_env_vars getenv with c | creds
      · rw [get_env_vars_error_code getenv c he]
      · rw [hpi]
  · intro fs2 hpj hpr hza
    have hgp : get_project_info fs2 = get_project_info fs := by
      unfold get_project_info
      rw [hpj, hpr]
    have htr : pyEnvTruthy (some zp) = true := by simp [pyEnvTruthy, hzp]
    have hzr : zipResolve (some zp) fs2 = zipResolve (some zp) fs := by
      unfold zipResolve
      rw [htr, hza]
      simp
    cases action with
    | setup => rfl
    | info => unfold mainRun; simp only [hgp, hzr]
    | upload => unfold mainRun; simp only [hgp, hzr]
    | publish => unfold mainRun; simp only [hgp, hzr]
    | testers => unfold mainRun; simp only [hgp, hzr]

/-- Witness for C10: with `--zip` given, a missing `package.json` still
halts with exit 1 and no network call, and toggling the built ZIP's
existence does not change the run. -/
theorem zip_override_reads_package_json_witness :
    mainRun CliAction.upload (some "z") (fun _ => some "x")
      ⟨false, some (Json.obj []), true, true⟩
      ⟨HttpOutcome.transportError, true, HttpOutcome.transportError,
       HttpOutcome.transportError, HttpOutcome.transportError⟩ = ([], 1) ∧
    mainRun CliAction.upload (some "z") (fun _ => some "x")
      ⟨true, some (Json.obj []), true, false⟩
      ⟨HttpOutcome.transportError, true, HttpOutcome.transportError,
       HttpOutcome.transportError, HttpOutcome.transportError⟩
      = mainRun CliAction.upload (some "z") (fun _ => some "x")
        ⟨true, some (Json.obj []), true, true⟩
        ⟨HttpOutcome.transportError, true, HttpOutcome.transportError,
         HttpOutcome.transportError, HttpOutcome.transportError⟩ :=
  ⟨(zip_override_reads_package_json CliAction.upload "z" (fun _ => some "x")
      ⟨false, some (Json.obj []), true, true⟩ _ (by decide) (by decide)).1 rfl,
   (zip_override_reads_package_json CliAction.upload "z" (fun _ => some "x")
      ⟨true, some (Json.obj []), true, true⟩ _ (by decide) (by decide)).2
      ⟨true, some (Json.obj []), true, false⟩ rfl rfl rfl⟩
